import Mathlib

/-!
Verification of the BSTS (Bayesian Structural Time Series) model of
`src/lib/bsts.py` against its specification.

The source is a single Python class `BSTS` with methods `fit`,
`posterior_model`, `predict` and `predict_trajectories`.  Real-valued data
is embedded with `ℚ`; numpy arrays and pandas objects become lists of
rationals; the pymc3 sampling engine is an external collaborator and is
abstracted as a function parameter from model specification to trace.
The global numpy random state is made explicit as an `RNG` value threaded
through the operations that draw noise.
-/

namespace BstsSpec

/-- Errors a call can surface.  `typeError` is Python's TypeError, raised
when subscripting a `None` trace; `indexError` is Python's IndexError from
an out-of-bounds array access.  `dimensionMismatchError` and
`inferenceNotRunError` belong to the specification's error taxonomy; they
appear nowhere in the source code, and are declared here only so that
claims naming them can be stated. -/
inductive PyErr where
  | typeError
  | indexError
  | dimensionMismatchError
  | inferenceNotRunError
  deriving DecidableEq, Repr

/-- A pandas DataFrame: `ncols` columns (pandas keeps the column count even
when there are zero rows), rows listed in time order.  `shape[0]` is
`rows.length`, `shape[1]` is `ncols`. -/
structure DataFrame where
  ncols : Nat
  rows : List (List ℚ)
  deriving DecidableEq, Repr

/-- The posterior trace produced by `pymc3.sample`: for each named random
quantity, the list of posterior draws.  Scalar quantities are one draw per
entry; vector quantities (`beta`, `trend`, `delta`) are one row per draw. -/
structure Trace where
  alpha : List ℚ
  beta : List (List ℚ)
  trend : List (List ℚ)
  delta : List (List ℚ)
  sigma_eps : List ℚ
  sigma_u : List ℚ
  sigma_v : List ℚ
  deriving DecidableEq, Repr

/-- numpy `mean` of a one-dimensional array. -/
def mean (xs : List ℚ) : ℚ := xs.sum / xs.length

/-- numpy `mean(axis=0)` of a two-dimensional array (rows = draws): the
list of column means, one per column of the first row. -/
def npColMean (m : List (List ℚ)) : List ℚ :=
  (List.range (m.headD []).length).map (fun j => mean (m.map (fun r => r.getD j 0)))

/-- numpy `m[:, -1].mean()`: the mean of the last column. -/
def lastColMean (m : List (List ℚ)) : ℚ :=
  mean (m.map (fun r => r.getD (r.length - 1) 0))

/-- numpy broadcast `(beta * features).sum(axis=1)` applied to one row:
the linear combination over the `k` columns. -/
def rowDot (b row : List ℚ) (k : Nat) : ℚ :=
  ((List.range k).map (fun i => b.getD i 0 * row.getD i 0)).sum

/-- The global numpy random state: a stream of standard draws and the
position of the next unconsumed one. -/
structure RNG where
  stream : Nat → ℚ
  pos : Nat

/-- Advancing the random state by `k` consumed draws. -/
def RNG.advance (g : RNG) (k : Nat) : RNG := ⟨g.stream, g.pos + k⟩

/-- Embedding of `np.random.normal(loc=0, scale=s, size=n)`: consumes `n`
positions of the stream, scaling each standard draw by `s`. -/
def drawNormal (s : ℚ) (n : Nat) (g : RNG) : List ℚ × RNG :=
  ((List.range n).map (fun i => s * g.stream (g.pos + i)), g.advance n)

/-- The declarative pymc3 model graph built inside `fit`'s `with Model()`
block, recorded by its structure: the `shape=` argument of each vector
random variable (pymc3 accepts a Python int, hence `deltaShape : Int`,
the source passes `observed.shape[0] - 1`), and the data the likelihood
is conditioned on.  Building the graph is symbolic: the pymc3
constructors compare no lengths, so construction itself never fails. -/
structure ModelSpec where
  betaShape : Nat
  deltaShape : Int
  trendShape : Nat
  observedData : List ℚ
  featuresData : DataFrame
  deriving DecidableEq, Repr

/-- The graph constructed by the `with Model()` block of `BSTS.fit`:
`beta = Normal('beta', ..., shape=features.shape[1])`,
`delta = GaussianRandomWalk('delta', ..., shape=observed.shape[0] - 1)`,
`trend = GaussianRandomWalk('trend', ..., mu=delta, shape=observed.shape[0])`,
`y = Normal('y', mu=trend + reg, ..., observed=observed)`. -/
def buildSpec (features : DataFrame) (observed : List ℚ) : ModelSpec :=
  { betaShape := features.ncols
    deltaShape := (observed.length : Int) - 1
    trendShape := observed.length
    observedData := observed
    featuresData := features }

/-- The `BSTS` object: `__init__` sets both fields to `None`. -/
structure BSTS where
  model : Option ModelSpec
  trace : Option Trace

/-- Embedding of `BSTS.__init__`. -/
def BSTS.init : BSTS := { model := none, trace := none }

/-- Embedding of `BSTS.fit`.  The body contains no validation and no
raise statement of its own: it builds the model graph and immediately
invokes the external sampler on it, storing the result.  The sampler
(`pymc3.sample`) is an external collaborator, abstracted as a function
from graph and draw count to trace; the `Except` channel carries errors
raised by the repository's own code, of which there are none. -/
def BSTS.fit (b : BSTS) (features : DataFrame) (observed : List ℚ) (nSamples : Nat)
    (sampler : ModelSpec → Nat → Trace) : Except PyErr BSTS :=
  let spec := buildSpec features observed
  .ok { b with model := some spec, trace := some (sampler spec nSamples) }

/-- Embedding of the body of `BSTS.posterior_model` once the trace is in
hand: `trace['trend'].mean(axis=0) + trace['alpha'].mean(axis=0)
+ (trace['beta'].mean(axis=0) * features).sum(axis=1)`, a positional
elementwise sum over the time steps. -/
def posteriorModelTrace (tr : Trace) (features : DataFrame) : List ℚ :=
  List.zipWith
    (fun m row => m + mean tr.alpha + rowDot (npColMean tr.beta) row features.ncols)
    (npColMean tr.trend) features.rows

/-- The three noise vectors of `BSTS.predict`: with `noise=True` they are
drawn by three consecutive `np.random.normal` calls (scales the posterior
means of `sigma_eps`, `sigma_u`, `sigma_v`, in that order, each of length
`features.shape[0]`); with `noise=False` they are `np.zeros`. -/
def noiseVectors (tr : Trace) (n : Nat) (noise : Bool) (g : RNG) :
    (List ℚ × List ℚ × List ℚ) × RNG :=
  if noise then
    let e := drawNormal (mean tr.sigma_eps) n g
    let u := drawNormal (mean tr.sigma_u) n e.2
    let v := drawNormal (mean tr.sigma_v) n u.2
    ((e.1, u.1, v.1), v.2)
  else
    ((List.replicate n 0, List.replicate n 0, List.replicate n 0), g)

/-- The sequential loop of `BSTS.predict`: `walk v u d0 m0 t` is the pair
`(delta[t], trend[t])` built by
`delta.append(delta[t-1] + v[t]); trend.append(trend[t-1] + delta[t] + u[t])`. -/
def walk (v u : List ℚ) (d0 m0 : ℚ) : Nat → ℚ × ℚ
  | 0 => (d0, m0)
  | t + 1 =>
      let p := walk v u d0 m0 t
      let d := p.1 + v.getD (t + 1) 0
      (d, p.2 + d + u.getD (t + 1) 0)

/-- Embedding of the body of `BSTS.predict` once the trace is in hand.
`alpha` and `beta` are posterior means; the noise vectors come from
`noiseVectors`; the initialisation
`delta = [trace['delta'][:, -1].mean() + v[0]]`,
`trend = [trace['trend'][:, -1].mean() + delta[0] + u[0]]` subscripts
`v[0]` and `u[0]`, which raises IndexError when `features.shape[0] = 0`
(both branches: the drawn vectors and `np.zeros` are then empty); the
loop then runs for `t` in `1..T'-1` and the return value is
`np.array(trend) + alpha + (beta * features).sum(axis=1) + eps`.
The random state comes out advanced even on the IndexError path, since
the draws happen before the subscript. -/
def predictTrace (tr : Trace) (features : DataFrame) (noise : Bool) (g : RNG) :
    Except PyErr (List ℚ) × RNG :=
  let alphaHat := mean tr.alpha
  let betaHat := npColMean tr.beta
  let n := features.rows.length
  let nv := noiseVectors tr n noise g
  let eps := nv.1.1
  let u := nv.1.2.1
  let v := nv.1.2.2
  match v.get? 0, u.get? 0 with
  | some v0, some u0 =>
      let d0 := lastColMean tr.delta + v0
      let m0 := lastColMean tr.trend + d0 + u0
      (.ok ((List.range n).map (fun t =>
        (walk v u d0 m0 t).2 + alphaHat
          + rowDot betaHat (features.rows.getD t []) features.ncols
          + eps.getD t 0)), nv.2)
  | _, _ => (.error .indexError, nv.2)

/-- Embedding of the method `BSTS.posterior_model`: subscripting
`self.trace['trend']` with `self.trace = None` raises TypeError.  The
method assigns to no field of `self`, so the object comes back as it
went in. -/
def BSTS.posterior_model (b : BSTS) (features : DataFrame) :
    Except PyErr (List ℚ) × BSTS :=
  match b.trace with
  | none => (.error .typeError, b)
  | some tr => (.ok (posteriorModelTrace tr features), b)

/-- Embedding of the method `BSTS.predict`: subscripting
`self.trace['alpha']` with `self.trace = None` raises TypeError; the
method assigns to no field of `self`. -/
def BSTS.predict (b : BSTS) (features : DataFrame) (noise : Bool) (g : RNG) :
    (Except PyErr (List ℚ) × BSTS) × RNG :=
  match b.trace with
  | none => ((.error .typeError, b), g)
  | some tr =>
      let r := predictTrace tr features noise g
      ((r.1, b), r.2)

/-- The trajectory a successful `predict` call returns (and `[]` on the
error paths, which `predict_trajectories` propagates instead of using). -/
def predictVal (tr : Trace) (features : DataFrame) (noise : Bool) (g : RNG) : List ℚ :=
  match (predictTrace tr features noise g).1 with
  | .ok l => l
  | .error _ => []

/-- Embedding of the body of `BSTS.predict_trajectories` once the trace is
in hand: `np.array([self.predict(features) for _ in range(n_samples)])`,
each call with the default `noise=True`, the global random state threaded
through the calls in order; an exception in any call propagates. -/
def predictTrajTrace (tr : Trace) (features : DataFrame) :
    Nat → RNG → Except PyErr (List (List ℚ)) × RNG
  | 0, g => (.ok [], g)
  | n + 1, g =>
      match predictTrace tr features true g with
      | (.ok traj, g1) =>
          match predictTrajTrace tr features n g1 with
          | (.ok rest, g2) => (.ok (traj :: rest), g2)
          | (.error e, g2) => (.error e, g2)
      | (.error e, g1) => (.error e, g1)

/-- The forecast slope sequence as the specification words it:
`delta[0] = mean(trace['delta'][:, last_training_index]) + v[0]` and
`delta[t] = delta[t-1] + v[t]` for `t ≥ 1`. -/
def deltaSpec (tr : Trace) (v : List ℚ) : Nat → ℚ
  | 0 => lastColMean tr.delta + v.getD 0 0
  | t + 1 => deltaSpec tr v t + v.getD (t + 1) 0

/-- The forecast trend sequence as the specification words it:
`trend[0] = mean(trace['trend'][:, last_training_index]) + delta[0] + u[0]`
and `trend[t] = trend[t-1] + delta[t] + u[t]` for `t ≥ 1`. -/
def trendSpec (tr : Trace) (u v : List ℚ) : Nat → ℚ
  | 0 => lastColMean tr.trend + deltaSpec tr v 0 + u.getD 0 0
  | t + 1 => trendSpec tr u v t + deltaSpec tr v (t + 1) + u.getD (t + 1) 0

/-- A concrete posterior trace used to instantiate the theorems: two
draws, one regression column, three training steps. -/
def trW : Trace :=
  { alpha := [1, 3]
    beta := [[1], [1]]
    trend := [[0, 0, 2], [0, 0, 4]]
    delta := [[1, 1], [1, 3]]
    sigma_eps := [1, 1]
    sigma_u := [1, 1]
    sigma_v := [1, 1] }

/-- A concrete two-step forecast feature matrix. -/
def fW : DataFrame := ⟨1, [[1], [2]]⟩

/-- A concrete three-row feature matrix matching `trW`'s training
length. -/
def fW3 : DataFrame := ⟨1, [[1], [2], [3]]⟩

/-- A concrete random state. -/
def gW : RNG := ⟨fun _ => 0, 0⟩

/-- A concrete external sampler. -/
def samplerW : ModelSpec → Nat → Trace := fun _ _ => trW

theorem zipWith_getD {α β γ : Type} (f : α → β → γ) (l1 : List α) (l2 : List β)
    (t : Nat) (d1 : α) (d2 : β) (d : γ) (h1 : t < l1.length) (h2 : t < l2.length) :
    (List.zipWith f l1 l2).getD t d = f (l1.getD t d1) (l2.getD t d2) := by
  induction l1 generalizing l2 t with
  | nil => simp at h1
  | cons a l1 ih =>
      cases l2 with
      | nil => simp at h2
      | cons b l2 =>
          cases t with
          | zero => simp [List.getD]
          | succ t =>
              simp only [List.zipWith_cons_cons, List.getD_cons_succ]
              exact ih l2 t (by simpa using h1) (by simpa using h2)

theorem range_map_getD {γ : Type} (f : Nat → γ) (w t : Nat) (d : γ) (h : t < w) :
    ((List.range w).map f).getD t d = f t := by
  rw [List.getD_eq_getElem?_getD]
  rw [List.getElem?_map, List.getElem?_range h]
  rfl

theorem getD_replicate (n t : Nat) (x : ℚ) : (List.replicate n x).getD t x = x := by
  rw [List.getD_eq_getElem?_getD]
  exact List.getElem?_getD_replicate_default_eq x n t

theorem npColMean_getD (m : List (List ℚ)) (j : Nat) (hj : j < (m.headD []).length) :
    (npColMean m).getD j 0 = mean (m.map (fun r => r.getD j 0)) := by
  unfold npColMean
  exact range_map_getD _ _ _ _ hj

theorem npColMean_length (m : List (List ℚ)) :
    (npColMean m).length = (m.headD []).length := by
  simp [npColMean]

theorem RNG.advance_advance (g : RNG) (a b : Nat) :
    (g.advance a).advance b = g.advance (a + b) := by
  simp [RNG.advance, Nat.add_assoc]

theorem RNG.advance_zero (g : RNG) : g.advance 0 = g := by
  cases g; simp [RNG.advance]

theorem noiseVectors_lengths (tr : Trace) (n : Nat) (noise : Bool) (g : RNG) :
    (noiseVectors tr n noise g).1.1.length = n ∧
    (noiseVectors tr n noise g).1.2.1.length = n ∧
    (noiseVectors tr n noise g).1.2.2.length = n := by
  cases noise <;> simp [noiseVectors, drawNormal]

theorem noiseVectors_true_rng (tr : Trace) (n : Nat) (g : RNG) :
    (noiseVectors tr n true g).2 = g.advance (3 * n) := by
  simp [noiseVectors, drawNormal, RNG.advance_advance]
  cases g
  simp [RNG.advance]
  ring

theorem noiseVectors_false (tr : Trace) (n : Nat) (g : RNG) :
    noiseVectors tr n false g =
      ((List.replicate n 0, List.replicate n 0, List.replicate n 0), g) := rfl

/-- The sequential loop agrees step by step with the sequences written in
the specification, given the initial subscripts `v[0]`, `u[0]`. -/
theorem walk_eq_spec (tr : Trace) (u v : List ℚ) (t : Nat) :
    walk v u (lastColMean tr.delta + v.getD 0 0)
        (lastColMean tr.trend + (lastColMean tr.delta + v.getD 0 0) + u.getD 0 0) t =
      (deltaSpec tr v t, trendSpec tr u v t) := by
  induction t with
  | zero => simp [walk, deltaSpec, trendSpec]
  | succ t ih =>
      simp only [walk, deltaSpec, trendSpec]
      rw [ih]

/-- Reduction of `predictTrace` when the noise vectors are in hand and
nonempty: the subscripts `v[0]`, `u[0]` succeed and the returned array is
the elementwise combination of the loop's trend, the posterior means, the
regression term and the observation noise. -/
theorem predictTrace_eq_of_noise (tr : Trace) (features : DataFrame) (noise : Bool)
    (g : RNG) (e u v : List ℚ) (g' : RNG)
    (h : noiseVectors tr features.rows.length noise g = ((e, u, v), g'))
    (hv : v ≠ []) (hu : u ≠ []) :
    predictTrace tr features noise g =
      (.ok ((List.range features.rows.length).map (fun t =>
          (walk v u (lastColMean tr.delta + v.getD 0 0)
             (lastColMean tr.trend + (lastColMean tr.delta + v.getD 0 0) + u.getD 0 0)
             t).2
            + mean tr.alpha
            + rowDot (npColMean tr.beta) (features.rows.getD t []) features.ncols
            + e.getD t 0)), g') := by
  obtain ⟨v0, vt, rfl⟩ := List.exists_cons_of_ne_nil hv
  obtain ⟨u0, ut, rfl⟩ := List.exists_cons_of_ne_nil hu
  simp [predictTrace, h, List.getD]

/-- With at least one forecast row the noise vectors are nonempty and
`predictTrace` succeeds, returning the loop's combination and leaving the
random state where `noiseVectors` put it. -/
theorem predictTrace_ok (tr : Trace) (features : DataFrame) (noise : Bool) (g : RNG)
    (hne : features.rows ≠ []) :
    predictTrace tr features noise g =
      (.ok ((List.range features.rows.length).map (fun t =>
          trendSpec tr (noiseVectors tr features.rows.length noise g).1.2.1
              (noiseVectors tr features.rows.length noise g).1.2.2 t
            + mean tr.alpha
            + rowDot (npColMean tr.beta) (features.rows.getD t []) features.ncols
            + (noiseVectors tr features.rows.length noise g).1.1.getD t 0)),
        (noiseVectors tr features.rows.length noise g).2) := by
  have hl := noiseVectors_lengths tr features.rows.length noise g
  have hlu := hl.2.1
  have hlv := hl.2.2
  have hpos : 0 < features.rows.length := List.length_pos.mpr hne
  have hv : (noiseVectors tr features.rows.length noise g).1.2.2 ≠ [] := by
    intro hnil; rw [hnil] at hlv; simp at hlv; omega
  have hu : (noiseVectors tr features.rows.length noise g).1.2.1 ≠ [] := by
    intro hnil; rw [hnil] at hlu; simp at hlu; omega
  rw [predictTrace_eq_of_noise tr features noise g
      (noiseVectors tr features.rows.length noise g).1.1
      (noiseVectors tr features.rows.length noise g).1.2.1
      (noiseVectors tr features.rows.length noise g).1.2.2
      (noiseVectors tr features.rows.length noise g).2 rfl hv hu]
  refine congrArg (fun l => ((Except.ok l : Except PyErr (List ℚ)), _)) ?_
  refine List.map_congr_left (fun t _ => ?_)
  rw [walk_eq_spec]

/-- C1 counterexample: with a 2-row features matrix and a length-3
observed series, `fit` does not fail with `DimensionMismatchError`;
its body performs no dimension comparison at all, so the model graph is
built and the external sampler is invoked on the mismatched data. -/
theorem C1_counterexample :
    fW.rows.length ≠ ([1, 2, 3] : List ℚ).length ∧
    BSTS.init.fit fW [1, 2, 3] 5 samplerW ≠ .error PyErr.dimensionMismatchError ∧
    BSTS.init.fit fW [1, 2, 3] 5 samplerW =
      .ok { model := some (buildSpec fW [1, 2, 3]),
            trace := some (samplerW (buildSpec fW [1, 2, 3]) 5) } :=
  ⟨by decide, fun h => Except.noConfusion h, rfl⟩

/-- C1 (amended): `fit` performs no dimension validation.  Whenever the
number of feature rows differs from the observed length, no
`DimensionMismatchError` (and no error at all) is raised by the
repository's code before sampling: the graph is constructed from the
mismatched data and the external sampler is invoked on it. -/
theorem C1_fit_no_dimension_check (b : BSTS) (features : DataFrame) (observed : List ℚ)
    (nSamples : Nat) (sampler : ModelSpec → Nat → Trace)
    (_hmm : features.rows.length ≠ observed.length) :
    b.fit features observed nSamples sampler =
      .ok { b with
            model := some (buildSpec features observed),
            trace := some (sampler (buildSpec features observed) nSamples) } := rfl

/-- C1 witness: the amended statement applied to a concrete mismatched
input, 2 feature rows against 3 observations. -/
theorem C1_fit_no_dimension_check_witness :
    BSTS.init.fit fW [1, 2, 3] 5 samplerW =
      .ok { BSTS.init with
            model := some (buildSpec fW [1, 2, 3]),
            trace := some (samplerW (buildSpec fW [1, 2, 3]) 5) } :=
  C1_fit_no_dimension_check BSTS.init fW [1, 2, 3] 5 samplerW (by decide)

/-- C2 counterexample: on a freshly constructed model, `posterior_model`
and `predict` fail with Python's TypeError (subscripting the `None`
trace), which is not the `InferenceNotRunError` the claim names. -/
theorem C2_counterexample :
    (BSTS.init.posterior_model fW).1 = .error PyErr.typeError ∧
    ((BSTS.init.predict fW true gW).1).1 = .error PyErr.typeError ∧
    PyErr.typeError ≠ PyErr.inferenceNotRunError :=
  ⟨rfl, rfl, by decide⟩

/-- C2 (amended): on every model whose trace is still `None` (as left by
`__init__`), every call to `predict` or `posterior_model` fails — but
with the TypeError produced by subscripting the `None` trace, since the
code defines no dedicated `InferenceNotRunError`. -/
theorem C2_unfitted_calls_fail (b : BSTS) (hb : b.trace = none)
    (features : DataFrame) (noise : Bool) (g : RNG) :
    (b.posterior_model features).1 = .error PyErr.typeError ∧
    ((b.predict features noise g).1).1 = .error PyErr.typeError := by
  constructor <;> simp [BSTS.posterior_model, BSTS.predict, hb]

/-- C2 witness: the amended statement applied to the freshly constructed
model. -/
theorem C2_unfitted_calls_fail_witness :
    (BSTS.init.posterior_model fW).1 = .error PyErr.typeError ∧
    ((BSTS.init.predict fW true gW).1).1 = .error PyErr.typeError :=
  C2_unfitted_calls_fail BSTS.init rfl fW true gW

/-- C5: `predict` with `noise=False` draws no randomness — the random
state comes back untouched — and its result is the same function of the
trace and features for every random state, so repeated calls with an
unchanged trace and identical features give identical output. -/
theorem C5_predict_noiseless_deterministic (tr : Trace) (features : DataFrame)
    (g1 g2 : RNG) :
    (predictTrace tr features false g1).1 = (predictTrace tr features false g2).1 ∧
    (predictTrace tr features false g1).2 = g1 := by
  obtain ⟨K, rows⟩ := features
  cases rows with
  | nil => constructor <;> simp [predictTrace, noiseVectors]
  | cons r rs =>
      constructor <;> simp [predictTrace, noiseVectors, List.replicate_succ]

/-- C7: every `fit` call builds the model graph with the latent trend of
the observed series' length, the latent slope `delta` one shorter, and
the coefficient vector `beta` of the feature matrix's column count. -/
theorem C7_fit_shapes (b : BSTS) (features : DataFrame) (observed : List ℚ)
    (nSamples : Nat) (sampler : ModelSpec → Nat → Trace) :
    ∃ b', b.fit features observed nSamples sampler = .ok b' ∧
      b'.model = some (buildSpec features observed) ∧
      (buildSpec features observed).trendShape = observed.length ∧
      (buildSpec features observed).deltaShape = (observed.length : Int) - 1 ∧
      (buildSpec features observed).betaShape = features.ncols :=
  ⟨_, rfl, rfl, rfl, rfl, rfl⟩

/-- C8: `posterior_model` and `predict` read the trace but assign to no
field of the object: the trace and model fields come back unchanged. -/
theorem C8_frame_no_mutation (b : BSTS) (features : DataFrame) (noise : Bool) (g : RNG) :
    (b.posterior_model features).2.trace = b.trace ∧
    (b.posterior_model features).2.model = b.model ∧
    ((b.predict features noise g).1).2.trace = b.trace ∧
    ((b.predict features noise g).1).2.model = b.model := by
  cases hb : b.trace <;> simp [BSTS.posterior_model, BSTS.predict, hb]

/-- With all-zero innovation vectors the specification's slope sequence
is constant at the last training slope mean. -/
theorem deltaSpec_zero_noise (tr : Trace) (n t : Nat) :
    deltaSpec tr (List.replicate n 0) t = lastColMean tr.delta := by
  induction t with
  | zero => simp [deltaSpec, getD_replicate]
  | succ t ih => simp [deltaSpec, ih, getD_replicate]

/-- With all-zero innovation vectors the specification's trend sequence
is the linear extrapolation of the last training trend and slope means. -/
theorem trendSpec_zero_noise (tr : Trace) (n t : Nat) :
    trendSpec tr (List.replicate n 0) (List.replicate n 0) t =
      lastColMean tr.trend + ((t : ℚ) + 1) * lastColMean tr.delta := by
  induction t with
  | zero =>
      simp [trendSpec, deltaSpec_zero_noise, getD_replicate]
  | succ t ih =>
      simp only [trendSpec, deltaSpec_zero_noise, ih, getD_replicate]
      push_cast
      ring

/-- C3: on a fitted trace and at least one forecast row, `predict`
succeeds and returns a trajectory of the features' length whose entry at
each `t` is the specification's sequential trend value — initialised from
the posterior means of the last training column of `delta` and `trend`
and advanced by the strictly sequential recursion — plus the posterior
mean intercept, the regression term, and the observation noise entry
(all three noise vectors zero when `noise=False`). -/
theorem C3_predict_recursion (tr : Trace) (features : DataFrame) (noise : Bool)
    (g : RNG) (hne : features.rows ≠ []) :
    ∃ out, (predictTrace tr features noise g).1 = .ok out ∧
      out.length = features.rows.length ∧
      ∀ t, t < features.rows.length →
        out.getD t 0 =
          trendSpec tr (noiseVectors tr features.rows.length noise g).1.2.1
              (noiseVectors tr features.rows.length noise g).1.2.2 t
            + mean tr.alpha
            + ((List.range features.ncols).map (fun i =>
                (npColMean tr.beta).getD i 0 * (features.rows.getD t []).getD i 0)).sum
            + (noiseVectors tr features.rows.length noise g).1.1.getD t 0 := by
  rw [predictTrace_ok tr features noise g hne]
  refine ⟨_, rfl, by simp, fun t ht => ?_⟩
  rw [range_map_getD _ _ _ _ ht]
  rfl

/-- C3 witness: the statement applied to the concrete trace, a two-row
feature matrix and the noiseless path. -/
theorem C3_predict_recursion_witness :
    ∃ out, (predictTrace trW fW false gW).1 = .ok out ∧
      out.length = fW.rows.length ∧
      ∀ t, t < fW.rows.length →
        out.getD t 0 =
          trendSpec trW (noiseVectors trW fW.rows.length false gW).1.2.1
              (noiseVectors trW fW.rows.length false gW).1.2.2 t
            + mean trW.alpha
            + ((List.range fW.ncols).map (fun i =>
                (npColMean trW.beta).getD i 0 * (fW.rows.getD t []).getD i 0)).sum
            + (noiseVectors trW fW.rows.length false gW).1.1.getD t 0 :=
  C3_predict_recursion trW fW false gW (by decide)

/-- C4: with a trace whose trend draws span the training window and a
feature matrix of that same length, `posterior_model` returns one value
per row, the posterior column mean of the trend at `t` plus the posterior
mean intercept plus the regression against the posterior mean
coefficients. -/
theorem C4_posterior_model_formula (tr : Trace) (features : DataFrame)
    (hT : (tr.trend.headD []).length = features.rows.length)
    (hK : (tr.beta.headD []).length = features.ncols) :
    (posteriorModelTrace tr features).length = features.rows.length ∧
    ∀ t, t < features.rows.length →
      (posteriorModelTrace tr features).getD t 0 =
        mean (tr.trend.map (fun r => r.getD t 0)) + mean tr.alpha
          + ((List.range features.ncols).map (fun i =>
              mean (tr.beta.map (fun r => r.getD i 0))
                * (features.rows.getD t []).getD i 0)).sum := by
  constructor
  · unfold posteriorModelTrace
    rw [List.length_zipWith, npColMean_length, hT, Nat.min_self]
  · intro t ht
    have h1 : t < (npColMean tr.trend).length := by
      rw [npColMean_length, hT]; exact ht
    unfold posteriorModelTrace
    rw [zipWith_getD _ _ _ t 0 [] 0 h1 ht]
    rw [npColMean_getD tr.trend t (by rw [hT]; exact ht)]
    unfold rowDot
    congr 1
    refine congrArg List.sum ?_
    refine List.map_congr_left fun i hi => ?_
    rw [npColMean_getD tr.beta i (by rw [hK]; exact List.mem_range.mp hi)]

/-- C4 witness: the statement applied to the concrete trace and a
three-row feature matrix matching the training length. -/
theorem C4_posterior_model_formula_witness :
    (posteriorModelTrace trW fW3).length = fW3.rows.length ∧
    ∀ t, t < fW3.rows.length →
      (posteriorModelTrace trW fW3).getD t 0 =
        mean (trW.trend.map (fun r => r.getD t 0)) + mean trW.alpha
          + ((List.range fW3.ncols).map (fun i =>
              mean (trW.beta.map (fun r => r.getD i 0))
                * (fW3.rows.getD t []).getD i 0)).sum :=
  C4_posterior_model_formula trW fW3 (by decide) (by decide)

/-- C9: `predict` on a zero-row features matrix reaches the subscript
`v[0]` on an empty noise vector and fails with IndexError instead of
returning an empty trajectory; with at least one row it returns a
nonempty trajectory of the features' length. -/
theorem C9_zero_rows_index_error (tr : Trace) (features : DataFrame) (noise : Bool)
    (g : RNG) :
    (features.rows = [] →
      (predictTrace tr features noise g).1 = .error PyErr.indexError) ∧
    (features.rows ≠ [] →
      ∃ out, (predictTrace tr features noise g).1 = .ok out ∧
        out.length = features.rows.length ∧ out ≠ []) := by
  constructor
  · intro h
    cases noise <;> simp [predictTrace, noiseVectors, h, drawNormal]
  · intro h
    rw [predictTrace_ok tr features noise g h]
    have hp : 0 < features.rows.length := List.length_pos.mpr h
    refine ⟨_, rfl, by simp, ?_⟩
    simp only [ne_eq, List.map_eq_nil_iff, List.range_eq_nil]
    omega

/-- C9 witness: the empty-features half applied to a concrete fitted
trace and a zero-row matrix. -/
theorem C9_zero_rows_index_error_witness :
    (predictTrace trW ⟨1, []⟩ true gW).1 = .error PyErr.indexError :=
  (C9_zero_rows_index_error trW ⟨1, []⟩ true gW).1 rfl

/-- C10: with `noise=False`, the sequential recursion collapses to a
linear extrapolation: the returned trajectory's entry at `t` is the last
training trend mean plus `(t+1)` times the last training slope mean plus
the posterior mean intercept and the regression term. -/
theorem C10_noiseless_closed_form (tr : Trace) (features : DataFrame) (g : RNG)
    (hne : features.rows ≠ []) :
    (predictTrace tr features false g).1 =
      .ok ((List.range features.rows.length).map (fun (t : Nat) =>
        lastColMean tr.trend + ((t : ℚ) + 1) * lastColMean tr.delta
          + mean tr.alpha
          + ((List.range features.ncols).map (fun i =>
              (npColMean tr.beta).getD i 0 * (features.rows.getD t []).getD i 0)).sum)) := by
  rw [predictTrace_ok tr features false g hne]
  show Except.ok _ = _
  congr 1
  refine List.map_congr_left fun t _ => ?_
  rw [noiseVectors_false]
  simp only [rowDot, trendSpec_zero_noise, getD_replicate]
  ring

/-- C10 witness: the closed form applied to the concrete trace and a
two-row forecast matrix. -/
theorem C10_noiseless_closed_form_witness :
    (predictTrace trW fW false gW).1 =
      .ok ((List.range fW.rows.length).map (fun (t : Nat) =>
        lastColMean trW.trend + ((t : ℚ) + 1) * lastColMean trW.delta
          + mean trW.alpha
          + ((List.range fW.ncols).map (fun i =>
              (npColMean trW.beta).getD i 0 * (fW.rows.getD t []).getD i 0)).sum)) :=
  C10_noiseless_closed_form trW fW gW (by decide)

/-- A succeeding noisy `predict` call is the pair of its returned
trajectory and the random state advanced by the three draws of the
features' length. -/
theorem predictTrace_true_pair (tr : Trace) (features : DataFrame) (g : RNG)
    (hne : features.rows ≠ []) :
    predictTrace tr features true g =
      (.ok (predictVal tr features true g),
        g.advance (3 * features.rows.length)) := by
  rw [predictTrace_ok tr features true g hne]
  refine Prod.ext ?_ (noiseVectors_true_rng tr features.rows.length g)
  simp [predictVal, predictTrace_ok tr features true g hne]

/-- A succeeding noisy `predict` call returns one value per feature
row. -/
theorem predictVal_true_length (tr : Trace) (features : DataFrame) (g : RNG)
    (hne : features.rows ≠ []) :
    (predictVal tr features true g).length = features.rows.length := by
  simp [predictVal, predictTrace_ok tr features true g hne]

/-- The list comprehension of `predict_trajectories` threads the random
state through `n` sequential `predict(features, noise=True)` calls:
row `j` is the call made on the state advanced by the `j` earlier calls'
draws, and the final state is advanced by all `n` calls' draws. -/
theorem predictTrajTrace_spec (tr : Trace) (features : DataFrame)
    (hne : features.rows ≠ []) (n : Nat) :
    ∀ g : RNG,
      ∃ L, predictTrajTrace tr features n g =
          (.ok L, g.advance (n * (3 * features.rows.length))) ∧
        L.length = n ∧
        ∀ j, j < n → L.getD j [] =
          predictVal tr features true
            (g.advance (j * (3 * features.rows.length))) := by
  induction n with
  | zero =>
      intro g
      refine ⟨[], ?_, rfl, fun j hj => absurd hj (by omega)⟩
      simp [predictTrajTrace, RNG.advance_zero]
  | succ n ih =>
      intro g
      obtain ⟨L, hL, hlen, hrow⟩ := ih (g.advance (3 * features.rows.length))
      refine ⟨predictVal tr features true g :: L, ?_, by simp [hlen], ?_⟩
      · simp only [predictTrajTrace, predictTrace_true_pair tr features g hne, hL,
          RNG.advance_advance]
        refine congrArg (fun k => ((Except.ok _ : Except PyErr (List (List ℚ))),
          RNG.advance g k)) ?_
        ring
      · intro j hj
        cases j with
        | zero => simp [RNG.advance_zero]
        | succ j =>
            have hj' : j < n := by omega
            simp only [List.getD_cons_succ]
            rw [hrow j hj', RNG.advance_advance]
            refine congrArg (fun k => predictVal tr features true (RNG.advance g k)) ?_
            ring

/-- C6: with a fitted trace, at least one forecast row and a positive
trajectory count, `predict_trajectories` makes `n` sequential
`predict(features, noise=True)` calls, each consuming its own fresh
noise draws from the random state, and returns the `n × T'` table whose
row `j` is the `j`-th call's trajectory in call order. -/
theorem C6_predict_trajectories (tr : Trace) (features : DataFrame) (n : Nat)
    (g : RNG) (hne : features.rows ≠ []) (_hn : 0 < n) :
    ∃ L, predictTrajTrace tr features n g =
        (.ok L, g.advance (n * (3 * features.rows.length))) ∧
      L.length = n ∧
      ∀ j, j < n →
        L.getD j [] =
          predictVal tr features true
            (g.advance (j * (3 * features.rows.length))) ∧
        (L.getD j []).length = features.rows.length := by
  obtain ⟨L, h1, h2, h3⟩ := predictTrajTrace_spec tr features hne n g
  refine ⟨L, h1, h2, fun j hj => ⟨h3 j hj, ?_⟩⟩
  rw [h3 j hj]
  exact predictVal_true_length tr features _ hne

/-- C6 witness: the statement applied to the concrete trace, a two-row
feature matrix and two requested trajectories. -/
theorem C6_predict_trajectories_witness :
    ∃ L, predictTrajTrace trW fW 2 gW =
        (.ok L, gW.advance (2 * (3 * fW.rows.length))) ∧
      L.length = 2 ∧
      ∀ j, j < 2 →
        L.getD j [] =
          predictVal trW fW true
            (gW.advance (j * (3 * fW.rows.length))) ∧
        (L.getD j []).length = fW.rows.length :=
  C6_predict_trajectories trW fW 2 gW (by decide) (by decide)

end BstsSpec
